import Mathlib

/-!
Verification of the GPIO IRQ counter driver (src/gpio_irq_driver.c).

The driver's globals (`gpio_irq`, `counter`, `gpio_desc`, src lines 25-27)
become fields of `DriverState`; the interrupt handler and the probe become
state-passing functions; the host's external calls made by the probe are
supplied through a `ProbeEnv` record of their results.  The `atomic_t`
counter is a 32-bit integer, modelled as a `Nat` reduced modulo `2 ^ 32`.
-/

namespace GpioIrqDriver

/-- `atomic_t` is a 32-bit integer: the counter wraps modulo `2 ^ 32`. -/
def counterWidth : Nat := 2 ^ 32

/-- Return values of a Linux interrupt handler (`irqreturn_t`). -/
inductive irqreturn_t where
  | IRQ_NONE
  | IRQ_HANDLED
deriving DecidableEq, Repr

/-- Device-managed (`devm_`) resources that the probe path attaches to the
device: the GPIO descriptor from `devm_gpiod_get` (src line 63) and the IRQ
registration from `devm_request_irq` (src line 77).  The driver core owns
this list and releases it in reverse acquisition order on probe failure and
on unbind. -/
inductive DevmRes where
  | gpioDesc
  | irqReg
deriving DecidableEq, Repr

/-- Steps of one probe execution, recorded in program order
(src/gpio_irq_driver.c:57-93). -/
inductive ProbeEvent where
  | descAcquiredInput
  | irqDerived
  | handlerRegistered
  | directionInputSet
deriving DecidableEq, Repr

instance : DecidableEq (Except Int Unit) := fun a b =>
  match a, b with
  | Except.error x, Except.error y =>
      if h : x = y then isTrue (by rw [h])
      else isFalse (by intro hc; cases hc; exact h rfl)
  | Except.error _, Except.ok _ => isFalse (by intro hc; cases hc)
  | Except.ok _, Except.error _ => isFalse (by intro hc; cases hc)
  | Except.ok x, Except.ok y => isTrue (by cases x; cases y; rfl)

/-- The driver's mutable state: the globals `static int gpio_irq`,
`static atomic_t counter` and `static struct gpio_desc *gpio_desc`
(src lines 25-27), the device-managed resources currently attached to the
device, and the `pr_info` log of counter values (src line 44). -/
structure DriverState where
  gpio_irq : Int
  counter : Nat
  gpio_desc : Option (Except Int Unit)
  devm : List DevmRes
  log : List Nat
deriving DecidableEq, Repr

/-- `gpio_irq_handler` (src lines 39-46): `atomic_inc(&counter)` wraps modulo
`2 ^ 32`, then `pr_info` records the value `atomic_read(&counter)` returns,
then the handler returns `IRQ_HANDLED`.  The `irq` and `dev_id` arguments are
not used by the body. -/
def gpio_irq_handler (irq : Int) (dev_id : Option Unit) (s : DriverState) :
    DriverState × irqreturn_t :=
  let c := (s.counter + 1) % counterWidth
  ({ s with counter := c, log := s.log ++ [c] }, irqreturn_t.IRQ_HANDLED)

/-- Results that the host returns to the probe's four external calls.
Kernel contract: `devm_gpiod_get` yields a descriptor or an `ERR_PTR`
holding a negative errno; `gpiod_to_irq` yields a non-negative IRQ number or
a negative errno; `devm_request_irq` and `gpiod_direction_input` yield `0`
on success or a negative errno. -/
structure ProbeEnv where
  gpiodGet : Except Int Unit
  gpiodToIrq : Int
  requestIrq : Int
  directionInput : Int
deriving DecidableEq, Repr

/-- `gpio_irq_probe` (src lines 57-93), returning the probe result, the
updated state, and the trace of completed steps.
`devm_gpiod_get(dev, NULL, GPIOD_IN)` acquires the descriptor and, because
of the `GPIOD_IN` flag, configures the line as an input in the same call;
each successful `devm_` call attaches its resource to the device.  The
global `gpio_desc` stores whatever pointer `devm_gpiod_get` returned, and
`gpio_irq` stores the `gpiod_to_irq` result, before either is checked. -/
def gpio_irq_probe (env : ProbeEnv) (s : DriverState) :
    Int × DriverState × List ProbeEvent :=
  match env.gpiodGet with
  | Except.error e =>
      (e, { s with gpio_desc := some (Except.error e) }, [])
  | Except.ok d =>
      let s1 : DriverState :=
        { s with gpio_desc := some (Except.ok d),
                 devm := s.devm ++ [DevmRes.gpioDesc] }
      if env.gpiodToIrq < 0 then
        (env.gpiodToIrq, { s1 with gpio_irq := env.gpiodToIrq },
          [ProbeEvent.descAcquiredInput])
      else
        let s2 : DriverState := { s1 with gpio_irq := env.gpiodToIrq }
        if env.requestIrq ≠ 0 then
          (env.requestIrq, s2,
            [ProbeEvent.descAcquiredInput, ProbeEvent.irqDerived])
        else
          let s3 : DriverState := { s2 with devm := s2.devm ++ [DevmRes.irqReg] }
          if env.directionInput ≠ 0 then
            (env.directionInput, s3,
              [ProbeEvent.descAcquiredInput, ProbeEvent.irqDerived,
               ProbeEvent.handlerRegistered])
          else
            (0, s3,
              [ProbeEvent.descAcquiredInput, ProbeEvent.irqDerived,
               ProbeEvent.handlerRegistered, ProbeEvent.directionInputSet])

/-- The host's bind path around `gpio_irq_probe`: the driver core runs the
probe and, when it returns a nonzero result, releases every device-managed
resource attached to the device (in reverse acquisition order) before the
bind is reported to have failed.  This devm cleanup is Linux driver-core
machinery, an external collaborator of the driver; the returned list records
the resources this bind released. -/
def host_bind (env : ProbeEnv) (s : DriverState) :
    Int × DriverState × List DevmRes :=
  let r := gpio_irq_probe env s
  if r.1 = 0 then (r.1, r.2.1, [])
  else (r.1, { r.2.1 with devm := [] }, (r.2.1).devm.reverse)

/-- The host's unbind/teardown path: `gpio_irq_driver` (src lines 110-116)
registers no remove callback, so teardown is exactly the driver core
releasing the device-managed resources in reverse acquisition order (the IRQ
registration is freed before the descriptor is put).  Returns the new state
and the list of resources this call released. -/
def host_teardown (s : DriverState) : DriverState × List DevmRes :=
  ({ s with devm := [] }, s.devm.reverse)

/-- Deliver `n` falling-edge events in sequence: each event is one
invocation of `gpio_irq_handler`. -/
def deliverEdges : Nat → DriverState → DriverState
  | 0, s => s
  | n + 1, s => deliverEdges n (gpio_irq_handler 0 Option.none s).1

/-- The atomic operations on `counter` as they interleave between concurrent
contexts: `atomic_inc` (one indivisible read-modify-write, src line 42) and
`atomic_read` (src line 44, and any reporting read). -/
inductive Action where
  | inc
  | read
deriving DecidableEq, Repr

/-- Run one interleaving of atomic counter operations from value `c`. -/
def runTrace : List Action → Nat → Nat
  | [], c => c
  | Action.inc :: tr, c => runTrace tr ((c + 1) % counterWidth)
  | Action.read :: tr, c => runTrace tr c

/-- Number of `atomic_inc` operations in an interleaving. -/
def countInc : List Action → Nat
  | [] => 0
  | Action.inc :: tr => countInc tr + 1
  | Action.read :: tr => countInc tr

/-- Checks a probe trace against the ordering invariant: whenever the
handler registration step occurs, some step that configures the line as an
input has already completed (`cfg` records that).  Both `descAcquiredInput`
(the `GPIOD_IN` acquisition) and `directionInputSet` configure the input
direction. -/
def orderingOk : Bool → List ProbeEvent → Bool
  | _, [] => true
  | _, ProbeEvent.descAcquiredInput :: tr => orderingOk true tr
  | _, ProbeEvent.directionInputSet :: tr => orderingOk true tr
  | cfg, ProbeEvent.handlerRegistered :: tr => cfg && orderingOk cfg tr
  | cfg, ProbeEvent.irqDerived :: tr => orderingOk cfg tr

/-- A probe environment in which every external call succeeds. -/
def envOk : ProbeEnv :=
  { gpiodGet := Except.ok (), gpiodToIrq := 42, requestIrq := 0,
    directionInput := 0 }

/-- A probe environment in which the descriptor is acquired but
`gpiod_to_irq` fails with `-ENXIO`. -/
def envFailIrq : ProbeEnv :=
  { gpiodGet := Except.ok (), gpiodToIrq := -6, requestIrq := 0,
    directionInput := 0 }

/-- The driver's state at module load: `gpio_irq` zero-initialized,
`counter = ATOMIC_INIT(0)`, `gpio_desc = NULL`, no devm resources attached,
empty log. -/
def initState : DriverState :=
  { gpio_irq := 0, counter := 0, gpio_desc := Option.none, devm := [],
    log := [] }

/-- The driver state with the counter at its maximum representable value. -/
def maxState : DriverState :=
  { initState with counter := counterWidth - 1 }

theorem counterWidth_pos : 0 < counterWidth := by
  simp [counterWidth]

/-- The probe never writes the counter, whatever the environment does. -/
theorem probe_counter_eq (env : ProbeEnv) (s : DriverState) :
    (gpio_irq_probe env s).2.1.counter = s.counter := by
  unfold gpio_irq_probe
  rcases env.gpiodGet with e | d <;> simp <;> split_ifs <;> rfl

/-- Sequential edge delivery adds the number of edges to the counter,
modulo the counter width. -/
theorem deliverEdges_counter (n : Nat) (s : DriverState)
    (h : s.counter < counterWidth) :
    (deliverEdges n s).counter = (s.counter + n) % counterWidth := by
  induction n generalizing s with
  | zero => simpa [deliverEdges] using (Nat.mod_eq_of_lt h).symm
  | succ n ih =>
      have hlt : (s.counter + 1) % counterWidth < counterWidth :=
        Nat.mod_lt _ counterWidth_pos
      have := ih (gpio_irq_handler 0 Option.none s).1 hlt
      simp only [deliverEdges, gpio_irq_handler] at this ⊢
      rw [this, Nat.mod_add_mod]
      ring_nf

/-- An interleaving that performs `countInc tr` atomic increments ends with
the counter advanced by that many, modulo the counter width. -/
theorem runTrace_count (tr : List Action) (c : Nat) (h : c < counterWidth) :
    runTrace tr c = (c + countInc tr) % counterWidth := by
  induction tr generalizing c with
  | nil => simpa [runTrace, countInc] using (Nat.mod_eq_of_lt h).symm
  | cons a tr ih =>
      cases a with
      | inc =>
          have hlt : (c + 1) % counterWidth < counterWidth :=
            Nat.mod_lt _ counterWidth_pos
          rw [runTrace, ih _ hlt, countInc, Nat.mod_add_mod]
          ring_nf
      | read =>
          rw [runTrace, ih c h, countInc]

/-- C1: on every execution of `gpio_irq_probe`, the handler is registered
only after the line descriptor has been configured as an input — the
`GPIOD_IN` acquisition at src line 63 completes the input configuration
before `devm_request_irq` at src line 77 can run. -/
theorem probe_registers_handler_only_after_input_config
    (env : ProbeEnv) (s : DriverState) :
    orderingOk false (gpio_irq_probe env s).2.2 = true := by
  unfold gpio_irq_probe
  rcases env.gpiodGet with e | d
  · rfl
  · split_ifs <;> rfl

/-- C2 fails on the code: bind to the node, deliver five falling edges,
unbind, rebind successfully — the new instance's counter reads 5, not 0,
because `counter` (src line 26) is module-global state that no probe or
teardown path resets. -/
theorem rebind_reset_counterexample :
    (host_bind envOk initState).1 = 0 ∧
    (deliverEdges 5 (host_bind envOk initState).2.1).counter = 5 ∧
    (host_bind envOk
      (host_teardown (deliverEdges 5 (host_bind envOk initState).2.1)).1).1
        = 0 ∧
    ¬ ((host_bind envOk
        (host_teardown
          (deliverEdges 5 (host_bind envOk initState).2.1)).1).2.1).counter
        = 0 := by
  refine ⟨rfl, by decide, rfl, by decide⟩

/-- C2 (amended): after a teardown followed by a rebind, the new instance's
counter reads exactly the value the previous instance accumulated — the
counter is initialized to 0 only at module load, and neither teardown nor
probe modifies it. -/
theorem rebind_preserves_counter (env : ProbeEnv) (s : DriverState) :
    ((host_bind env (host_teardown s).1).2.1).counter = s.counter := by
  have hp : (gpio_irq_probe env (host_teardown s).1).2.1.counter
      = s.counter := by
    rw [probe_counter_eq]
    rfl
  unfold host_bind
  dsimp only
  split_ifs with h
  · exact hp
  · exact hp

/-- C3: when the descriptor is acquired but `gpiod_to_irq` fails, the bind
path releases the descriptor (the device-managed resource attached by
`devm_gpiod_get`) before the bind returns its negative result, leaving no
acquired resource referenced by the context. -/
theorem bind_releases_descriptor_on_irq_failure
    (env : ProbeEnv) (s : DriverState) (hdevm : s.devm = [])
    (hok : env.gpiodGet = Except.ok ()) (hirq : env.gpiodToIrq < 0) :
    (host_bind env s).1 = env.gpiodToIrq ∧ (host_bind env s).1 < 0 ∧
    (host_bind env s).2.2 = [DevmRes.gpioDesc] ∧
    ((host_bind env s).2.1).devm = [] := by
  have hne : ¬ env.gpiodToIrq = 0 := by omega
  unfold host_bind gpio_irq_probe
  rw [hok]
  simp [hirq, hne, hdevm]

theorem bind_releases_descriptor_on_irq_failure_witness :
    envFailIrq.gpiodGet = Except.ok () ∧ envFailIrq.gpiodToIrq < 0 ∧
    ((host_bind envFailIrq initState).1 = envFailIrq.gpiodToIrq ∧
     (host_bind envFailIrq initState).1 < 0 ∧
     (host_bind envFailIrq initState).2.2 = [DevmRes.gpioDesc] ∧
     ((host_bind envFailIrq initState).2.1).devm = []) :=
  ⟨rfl, by decide,
    bind_releases_descriptor_on_irq_failure envFailIrq initState rfl rfl
      (by decide)⟩

/-- C4: teardown is idempotent — the driver registers no remove callback, so
teardown releases exactly the attached devm resources; a second teardown
finds none, releases nothing, and leaves the state of the first teardown
unchanged. -/
theorem teardown_idempotent (s : DriverState) :
    (host_teardown (host_teardown s).1).1 = (host_teardown s).1 ∧
    (host_teardown (host_teardown s).1).2 = [] :=
  ⟨rfl, rfl⟩

/-- C5: every invocation of `gpio_irq_handler`, for all argument values,
increments the counter by one modulo `2 ^ 32`, appends exactly one log
record holding the counter's current value, and returns `IRQ_HANDLED`. -/
theorem handler_increments_logs_returns_handled
    (irq : Int) (dev_id : Option Unit) (s : DriverState) :
    (gpio_irq_handler irq dev_id s).1.counter
      = (s.counter + 1) % counterWidth ∧
    (gpio_irq_handler irq dev_id s).1.log
      = s.log ++ [(gpio_irq_handler irq dev_id s).1.counter] ∧
    (gpio_irq_handler irq dev_id s).2 = irqreturn_t.IRQ_HANDLED :=
  ⟨rfl, rfl, rfl⟩

/-- C6: delivering `N` edge events sequentially to an instance whose counter
starts at 0 leaves the counter equal to `N` modulo the counter width. -/
theorem edges_counter_mod_width (N : Nat) (s : DriverState)
    (h : s.counter = 0) :
    (deliverEdges N s).counter = N % counterWidth := by
  have := deliverEdges_counter N s (by rw [h]; exact counterWidth_pos)
  rwa [h, Nat.zero_add] at this

theorem edges_counter_mod_width_witness :
    initState.counter = 0 ∧
    (deliverEdges 5 initState).counter = 5 % counterWidth :=
  ⟨rfl, edges_counter_mod_width 5 initState rfl⟩

/-- C7: incrementing the counter at its maximum representable value
`2 ^ 32 - 1` wraps to 0 per fixed-width semantics; the handler still
completes and returns `IRQ_HANDLED` — increment is total and never
faults. -/
theorem counter_wraps_at_max (irq : Int) (dev_id : Option Unit)
    (s : DriverState) (h : s.counter = counterWidth - 1) :
    (gpio_irq_handler irq dev_id s).1.counter = 0 ∧
    (gpio_irq_handler irq dev_id s).2 = irqreturn_t.IRQ_HANDLED := by
  refine ⟨?_, rfl⟩
  show (s.counter + 1) % counterWidth = 0
  rw [h]
  decide

theorem counter_wraps_at_max_witness :
    maxState.counter = counterWidth - 1 ∧
    ((gpio_irq_handler 0 Option.none maxState).1.counter = 0 ∧
     (gpio_irq_handler 0 Option.none maxState).2
       = irqreturn_t.IRQ_HANDLED) :=
  ⟨rfl, counter_wraps_at_max 0 Option.none maxState rfl⟩

/-- C8: in every interleaving of atomic counter operations that contains
exactly `M` atomic increments (the handler invocations) and arbitrarily many
reads, no increment is lost: starting from 0, the final counter value is `M`
modulo the counter width. -/
theorem concurrent_increments_not_lost (M : Nat) (tr : List Action)
    (h : countInc tr = M) :
    runTrace tr 0 = M % counterWidth := by
  have := runTrace_count tr 0 counterWidth_pos
  rwa [Nat.zero_add, h] at this

theorem concurrent_increments_not_lost_witness :
    countInc
      [Action.inc, Action.read, Action.inc, Action.inc, Action.read] = 3 ∧
    runTrace
      [Action.inc, Action.read, Action.inc, Action.inc, Action.read] 0
      = 3 % counterWidth :=
  ⟨rfl, concurrent_increments_not_lost 3 _ rfl⟩

/-- C9: under the kernel error-code contract (failures are negative),
`gpio_irq_probe` returns 0 exactly when all four steps succeed; the first
failing step's code is returned; any nonzero result is negative; and the
counter is unchanged by every probe execution. -/
theorem probe_result_characterization (env : ProbeEnv) (s : DriverState)
    (hget : ∀ e, env.gpiodGet = Except.error e → e < 0)
    (hreq : env.requestIrq ≤ 0) (hdir : env.directionInput ≤ 0) :
    ((gpio_irq_probe env s).1 = 0 ↔
      (env.gpiodGet = Except.ok () ∧ 0 ≤ env.gpiodToIrq ∧
        env.requestIrq = 0 ∧ env.directionInput = 0)) ∧
    (∀ e, env.gpiodGet = Except.error e → (gpio_irq_probe env s).1 = e) ∧
    (env.gpiodGet = Except.ok () → env.gpiodToIrq < 0 →
      (gpio_irq_probe env s).1 = env.gpiodToIrq) ∧
    (env.gpiodGet = Except.ok () → 0 ≤ env.gpiodToIrq →
      env.requestIrq ≠ 0 → (gpio_irq_probe env s).1 = env.requestIrq) ∧
    (env.gpiodGet = Except.ok () → 0 ≤ env.gpiodToIrq →
      env.requestIrq = 0 → env.directionInput ≠ 0 →
      (gpio_irq_probe env s).1 = env.directionInput) ∧
    ((gpio_irq_probe env s).1 ≠ 0 → (gpio_irq_probe env s).1 < 0) ∧
    (gpio_irq_probe env s).2.1.counter = s.counter := by
  unfold gpio_irq_probe
  rcases hg : env.gpiodGet with e | d
  · have he := hget e hg
    simp [hg]
    constructor
    · omega
    · omega
  · cases d
    simp only [hg]
    split_ifs with h1 h2 h3 <;> simp_all <;> omega

theorem probe_result_characterization_witness :
    (gpio_irq_probe envOk initState).1 = 0 ∧
    (gpio_irq_probe envOk initState).2.1.counter = initState.counter := by
  have h := probe_result_characterization envOk initState
    (by intro e he; simp [envOk] at he) (by decide) (by decide)
  exact ⟨h.1.mpr ⟨rfl, by decide, rfl, rfl⟩, h.2.2.2.2.2.2⟩

/-- C10: the handler's observable behaviour is independent of its `irq` and
`dev_id` arguments — from the same state, any two invocations produce the
same state and the same `IRQ_HANDLED` result. -/
theorem handler_noninterference (irq1 irq2 : Int) (d1 d2 : Option Unit)
    (s : DriverState) :
    gpio_irq_handler irq1 d1 s = gpio_irq_handler irq2 d2 s :=
  rfl

end GpioIrqDriver
